import Mathlib

/-!
Shallow embedding of the Com2tcp serial-to-TCP forwarder core
(src/serial_forwarder.py and src/serial_forwarder_http.py).

Buffered messages, the in-memory deque buffer, the flush/mark-sent loop,
retention cleanup, the durable-store save operations, the HTTP-relay send
path and the start/stop lifecycle are translated into executable Lean
definitions; the theorems below settle the specification claims against
them.
-/

namespace Com2tcp

/-- A buffered message, mirroring the dict built in
SinglePortForwarder.add_to_buffer / load_buffer: opaque payload bytes, an
ISO-8601 creation timestamp string, a sent flag stored as the integer 0/1,
and an optional sent timestamp.  Where the code does arithmetic on the sent
timestamp (datetime.fromisoformat followed by total_seconds) we represent
the parsed instant in seconds as an Int; none stands for a null or
unparseable value. -/
structure BMsg where
  data : List Nat
  timestamp : String
  sent : Nat
  sent_timestamp : Option Int
  deriving DecidableEq, Repr

/-- The removal test of SinglePortForwarder.cleanup_old_buffer: a message is
dropped when sent == 1, its sent_timestamp parses, and its age exceeds
2592000 seconds (30 days); the comparison in the source is strict. -/
def msgExpired (now : Int) (m : BMsg) : Bool :=
  m.sent == 1 &&
    (match m.sent_timestamp with
     | some t => decide (now - t > 2592000)
     | none => false)

/-- SinglePortForwarder.cleanup_old_buffer: keep every item that is not an
expired sent message. -/
def cleanup_old_buffer (now : Int) (buf : List BMsg) : List BMsg :=
  buf.filter (fun item => !msgExpired now item)

/-- The buffer_size lookup in SinglePortForwarder.init:
port_config.get with default 10000. -/
def getBufferSize (cfg : Option Nat) : Nat :=
  cfg.getD 10000

/-- Append with collections.deque maxlen semantics: when the new length
exceeds maxlen, elements are discarded from the head. -/
def deque_append (maxlen : Nat) (buf : List BMsg) (m : BMsg) : List BMsg :=
  if maxlen < (buf ++ [m]).length then
    (buf ++ [m]).drop ((buf ++ [m]).length - maxlen)
  else buf ++ [m]

/-- The fresh message constructed by SinglePortForwarder.add_to_buffer. -/
def newMsg (nowIso : String) (d : List Nat) : BMsg :=
  { data := d, timestamp := nowIso, sent := 0, sent_timestamp := none }

/-- The comprehension in flush_buffer step 1:
pairs (idx, item) for the items with sent == 0, indices starting at i. -/
def unsentFrom (i : Nat) : List BMsg → List (Nat × BMsg)
  | [] => []
  | m :: rest =>
    if m.sent == 0 then (i, m) :: unsentFrom (i + 1) rest
    else unsentFrom (i + 1) rest

/-- The send loop of flush_buffer step 2.  The transport is an oracle
net : Nat → Bool giving the outcome of the k-th sendall attempt of this
flush; the loop records the successfully sent indices and stops at the
first failure. -/
def sendLoop (net : Nat → Bool) : Nat → List (Nat × BMsg) → List Nat
  | _, [] => []
  | k, (idx, _) :: rest =>
    if net k then idx :: sendLoop net (k + 1) rest else []

/-- The per-index update of flush_buffer step 3:
buffer[idx].sent = 1; buffer[idx].sent_timestamp = now. -/
def flipMsg (now : Int) (m : BMsg) : BMsg :=
  { m with sent := 1, sent_timestamp := some now }

/-- One iteration of the marking loop in flush_buffer step 3, guarded by
idx < len(buffer) exactly as in the source. -/
def markOne (now : Int) (buf : List BMsg) (idx : Nat) : List BMsg :=
  match buf.get? idx with
  | some m => buf.set idx (flipMsg now m)
  | none => buf

/-- flush_buffer step 3: mark every successfully sent index, in one batch
after the send loop has ended. -/
def markIndices (now : Int) (idxs : List Nat) (buf : List BMsg) : List BMsg :=
  idxs.foldl (markOne now) buf

/-- The mutable per-port state touched by the buffer operations of
SinglePortForwarder. -/
structure FwdState where
  buffer : List BMsg
  tcp_connected : Bool
  messages_sent : Nat
  messages_buffered : Nat
  maxlen : Nat
  deriving Repr

/-- SinglePortForwarder.add_to_buffer: append a fresh unsent message under
deque maxlen semantics and bump the messages_buffered counter. -/
def add_to_buffer (nowIso : String) (d : List Nat) (st : FwdState) : FwdState :=
  { st with
    buffer := deque_append st.maxlen st.buffer (newMsg nowIso d)
    messages_buffered := st.messages_buffered + 1 }

/-- SinglePortForwarder.flush_buffer: snapshot the unsent items, send them
in order stopping at the first failure, mark the successful prefix in one
batch, then run the retention cleanup.  A failure also marks the TCP side
disconnected, as the except branch of the source does. -/
def flush_buffer (net : Nat → Bool) (now : Int) (st : FwdState) : FwdState :=
  if !st.tcp_connected then st
  else if st.buffer.isEmpty then st
  else if (unsentFrom 0 st.buffer).isEmpty then
    { st with buffer := cleanup_old_buffer now st.buffer }
  else
    { st with
      buffer := cleanup_old_buffer now
        (if (sendLoop net 0 (unsentFrom 0 st.buffer)).isEmpty then st.buffer
         else markIndices now (sendLoop net 0 (unsentFrom 0 st.buffer)) st.buffer)
      tcp_connected :=
        !(decide ((sendLoop net 0 (unsentFrom 0 st.buffer)).length
            < (unsentFrom 0 st.buffer).length))
      messages_sent := st.messages_sent + (sendLoop net 0 (unsentFrom 0 st.buffer)).length }

/-- SinglePortForwarder.send_data: when connected, attempt one sendall
(outcome given by the oracle net); on failure mark disconnected and buffer
the payload; when not connected, buffer the payload directly. -/
def send_data (net : Bool) (nowIso : String) (d : List Nat) (st : FwdState) :
    Bool × FwdState :=
  if st.tcp_connected then
    if net then
      (true, { st with messages_sent := st.messages_sent + 1 })
    else
      (false, add_to_buffer nowIso d { st with tcp_connected := false })
  else
    (false, add_to_buffer nowIso d st)

/-- The operations that mutate the in-memory buffer of a running
SinglePortForwarder. -/
inductive Op where
  | add (nowIso : String) (d : List Nat)
  | flush (net : Nat → Bool) (now : Int)
  | cleanup (now : Int)
  | send (net : Bool) (nowIso : String) (d : List Nat)

/-- Apply one buffer-mutating operation. -/
def applyOp : Op → FwdState → FwdState
  | .add iso d, st => add_to_buffer iso d st
  | .flush net now, st => flush_buffer net now st
  | .cleanup now, st => { st with buffer := cleanup_old_buffer now st.buffer }
  | .send net iso d, st => (send_data net iso d st).2

/-- The fresh message an operation may introduce into the buffer. -/
def opFresh : Op → Option BMsg
  | .add iso d => some (newMsg iso d)
  | .send _ iso d => some (newMsg iso d)
  | _ => none

/-- The count of leading successful transport attempts starting at attempt
index k, among the next n attempts. -/
def leadSucc (net : Nat → Bool) : Nat → Nat → Nat
  | _, 0 => 0
  | k, n + 1 => if net k then leadSucc net (k + 1) n + 1 else 0

/-- Derived characterization used in proofs: flip the first k unsent
messages of the buffer. -/
def markPref (now : Int) : Nat → List BMsg → List BMsg
  | _, [] => []
  | 0, buf => buf
  | k + 1, m :: rest =>
    if m.sent == 0 then flipMsg now m :: markPref now k rest
    else m :: markPref now (k + 1) rest

/-! ## Durable store (SQLite buffer table) of serial_forwarder.py -/

/-- A row of the buffer table created by init_db. -/
structure DbRow where
  id : Nat
  data : List Nat
  timestamp : String
  sent : Nat
  sent_timestamp : Option Int
  deriving DecidableEq, Repr

/-- The durable per-port store: the rows of the buffer table plus the next
AUTOINCREMENT id. -/
structure DB where
  rows : List DbRow
  nextId : Nat
  deriving DecidableEq, Repr

/-- The reserved sentinel in the timestamp column marking the
pending-accumulator slot. -/
def PENDING_ACCUMULATOR : String := "PENDING_ACCUMULATOR"

/-- SinglePortForwarder.save_pending_data: delete any existing sentinel row
first, then insert at most one new sentinel row, none when the accumulator
is empty. -/
def save_pending_data (acc : List Nat) (db : DB) : DB :=
  let rows1 := db.rows.filter (fun r => !(r.timestamp == PENDING_ACCUMULATOR))
  if acc.isEmpty then { db with rows := rows1 }
  else
    { rows := rows1 ++ [{ id := db.nextId, data := acc,
                          timestamp := PENDING_ACCUMULATOR, sent := 0,
                          sent_timestamp := none }]
      nextId := db.nextId + 1 }

/-- Insert the in-memory buffer items as fresh rows, ids assigned by
AUTOINCREMENT in list order. -/
def insertAll (buf : List BMsg) (db : DB) : DB :=
  buf.foldl
    (fun d m =>
      { rows := d.rows ++ [{ id := d.nextId, data := m.data,
                             timestamp := m.timestamp, sent := m.sent,
                             sent_timestamp := m.sent_timestamp }]
        nextId := d.nextId + 1 })
    db

/-- SinglePortForwarder.save_buffer: within one transaction, delete every
row whose timestamp is not the sentinel and re-insert the current buffer
items. -/
def save_buffer (buf : List BMsg) (db : DB) : DB :=
  insertAll buf
    { db with rows := db.rows.filter (fun r => r.timestamp == PENDING_ACCUMULATOR) }

/-- Number of sentinel rows in a row list. -/
def countSentinel (rows : List DbRow) : Nat :=
  (rows.filter (fun r => r.timestamp == PENDING_ACCUMULATOR)).length

/-! ## Construction (init_db, load_buffer, load_pending_data) -/

/-- A row as fetched by load_buffer: the new schema carries the sent
columns; the old-schema fallback SELECT yields only data and timestamp. -/
inductive LoadedRow where
  | newSchema (data : List Nat) (ts : String) (sent : Nat) (sentTs : Option Int)
  | oldSchema (data : List Nat) (ts : String)
  deriving DecidableEq, Repr

/-- The dict appended per row in load_buffer; old-schema rows default to
sent = 0 and a null sent timestamp. -/
def rowToMsg : LoadedRow → BMsg
  | .newSchema d ts s st => { data := d, timestamp := ts, sent := s, sent_timestamp := st }
  | .oldSchema d ts => { data := d, timestamp := ts, sent := 0, sent_timestamp := none }

/-- SinglePortForwarder.load_buffer: the fetch outcome is either the row
list or a raised error.  The fetched rows are appended one by one into
the deque created with maxlen = buffer_size in the constructor, so when
the store holds more rows than buffer_size the oldest loaded rows are
evicted; the except branch leaves an empty buffer. -/
def load_buffer (maxlen : Nat) (res : Except Unit (List LoadedRow)) : List BMsg :=
  match res with
  | .ok rows => rows.foldl (fun b r => deque_append maxlen b (rowToMsg r)) []
  | .error _ => []

/-- SinglePortForwarder.load_pending_data: restore the accumulator bytes
from the sentinel row when the fetch succeeds and a row exists; any error
is caught and the accumulator stays empty. -/
def load_pending_data (res : Except Unit (Option (List Nat))) : List Nat :=
  match res with
  | .ok (some d) => d
  | .ok none => []
  | .error _ => []

/-- The parts of a freshly constructed SinglePortForwarder the construction
claims talk about. -/
structure Forwarder where
  buffer : List BMsg
  serial_accumulator : List Nat
  running : Bool
  maxlen : Nat
  deriving DecidableEq, Repr

/-- SinglePortForwarder.init: every durable-store step is wrapped in
try/except in the source, so construction is a total function of the three
store outcomes; initRes is the init_db outcome, whose failure is only
logged. -/
def mkForwarder (cfgBufSize : Option Nat) (initRes : Except Unit Unit)
    (bufRes : Except Unit (List LoadedRow))
    (pendRes : Except Unit (Option (List Nat))) : Forwarder :=
  match initRes with
  | .ok _ =>
      { buffer := load_buffer (getBufferSize cfgBufSize) bufRes
        serial_accumulator := load_pending_data pendRes
        running := false
        maxlen := getBufferSize cfgBufSize }
  | .error _ =>
      { buffer := load_buffer (getBufferSize cfgBufSize) bufRes
        serial_accumulator := load_pending_data pendRes
        running := false
        maxlen := getBufferSize cfgBufSize }

/-! ## HTTP-relay variant (serial_forwarder_http.py) -/

/-- A row of the pending_messages table of the HTTP variant: AUTOINCREMENT
id, the time.time() value recorded at insert, and the payload. -/
structure PRow where
  id : Nat
  timestamp : Int
  data : List Nat
  deriving DecidableEq, Repr

/-- The pending_messages store with its AUTOINCREMENT counter. -/
structure PDB where
  rows : List PRow
  nextId : Nat
  deriving DecidableEq, Repr

/-- The empty pending store right after table creation. -/
def emptyPDB : PDB := { rows := [], nextId := 1 }

/-- SinglePortHTTPForwarder.add_pending_message: insert a row stamped with
the current clock value. -/
def add_pending_message (now : Int) (d : List Nat) (db : PDB) : PDB :=
  { rows := db.rows ++ [{ id := db.nextId, timestamp := now, data := d }]
    nextId := db.nextId + 1 }

/-- SinglePortHTTPForwarder.remove_pending_message: DELETE WHERE id = mid. -/
def remove_pending_message (mid : Nat) (db : PDB) : PDB :=
  { db with rows := db.rows.filter (fun r => !(r.id == mid)) }

/-- Stable insertion into a timestamp-sorted list, modelling ORDER BY
timestamp. -/
def insertByTs (r : PRow) : List PRow → List PRow
  | [] => [r]
  | x :: xs =>
    if r.timestamp ≤ x.timestamp then r :: x :: xs else x :: insertByTs r xs

/-- Sort rows by their timestamp column (stable). -/
def sortByTs : List PRow → List PRow
  | [] => []
  | x :: xs => insertByTs x (sortByTs xs)

/-- SinglePortHTTPForwarder.get_pending_messages:
SELECT id, timestamp, data FROM pending_messages ORDER BY timestamp. -/
def get_pending_messages (db : PDB) : List PRow :=
  sortByTs db.rows

/-- Outcome of the requests.post call in send_to_http: either a response
with a status code and the parsed bytes_sent field of its JSON body (none
when the body does not parse; the source defaults a missing field to 0
before this point), or a raised exception such as a timeout. -/
inductive HttpOutcome where
  | response (status : Nat) (bytesSentField : Option Int)
  | error
  deriving DecidableEq, Repr

/-- The HTTP-variant state touched by a send attempt. -/
structure HState where
  pdb : PDB
  messages_sent : Nat
  deriving DecidableEq, Repr

/-- SinglePortHTTPForwarder.send_to_http: on a 200 response the message is
removed from the pending store and counted as sent - the bytes_sent
comparison against len(payload) only chooses between a warning and an info
log line; any other status or a raised exception returns failure and
leaves the store untouched. -/
def send_to_http (out : HttpOutcome) (mid : Nat) (payload : List Nat)
    (st : HState) : Bool × HState :=
  match out with
  | .error => (false, st)
  | .response status _bs =>
    if status == 200 then
      (true, { pdb := remove_pending_message mid st.pdb
               messages_sent := st.messages_sent + 1 })
    else (false, st)

/-! ## Lifecycle (start and stop) -/

/-- The lifecycle state both start methods read and write. -/
structure LifeState where
  running : Bool
  threads : Nat
  deriving DecidableEq, Repr

/-- SinglePortForwarder.start: refuse when already running; otherwise set
the running flag and spawn the three workers (serial reader, TCP
reconnect, cleanup). -/
def start_fwd (st : LifeState) : Bool × LifeState :=
  if st.running then (false, st)
  else (true, { running := true, threads := 3 })

/-- SinglePortHTTPForwarder.start: refuse when already running; otherwise
set the running flag and spawn the three workers (serial reader, buffer
timeout, retry). -/
def start_http (st : LifeState) : Bool × LifeState :=
  if st.running then (false, st)
  else (true, { running := true, threads := 3 })

/-- The externally visible steps a stop() call performs, in program
order. -/
inductive StopEv where
  | clearRunning
  | joinWorker (timeout : Nat)
  | savePending
  | saveBuffer
  | sendBuffered
  | closeSerial
  | closeTcp
  deriving DecidableEq, Repr

/-- SinglePortForwarder.stop: clear running, join the three workers with a
5-second deadline each, persist the pending accumulator when non-empty,
persist the buffer, then close the serial port and the TCP socket.  When
not running it refuses and does nothing. -/
def stop_fwd (running : Bool) (pendingNonempty : Bool) : Bool × List StopEv :=
  if !running then (false, [])
  else
    (true,
      [StopEv.clearRunning]
        ++ List.replicate 3 (StopEv.joinWorker 5)
        ++ (if pendingNonempty then [StopEv.savePending] else [])
        ++ [StopEv.saveBuffer, StopEv.closeSerial, StopEv.closeTcp])

/-- SinglePortHTTPForwarder.stop: clear running, close the serial port
immediately, join the three workers with a 2-second deadline each, send
any remaining buffered data, and close the serial port again. -/
def stop_http (running : Bool) : Bool × List StopEv :=
  if !running then (false, [])
  else
    (true,
      [StopEv.clearRunning, StopEv.closeSerial]
        ++ List.replicate 3 (StopEv.joinWorker 2)
        ++ [StopEv.sendBuffered, StopEv.closeSerial])

/-- The positions at which an event occurs in a trace. -/
def evIndexes (tr : List StopEv) (e : StopEv) : List Nat :=
  (tr.enum.filter (fun p => p.2 == e)).map Prod.fst

/-! ## Concrete example inputs used by witness and counterexample theorems -/

/-- A state whose two-slot buffer is full, for the eviction witness. -/
def exFull2 : FwdState :=
  { buffer := [⟨[1], "a", 0, none⟩, ⟨[2], "b", 0, none⟩]
    tcp_connected := false
    messages_sent := 0
    messages_buffered := 0
    maxlen := 2 }

/-- A connected state with two unsent messages, for the flush witness. -/
def exFlushSt : FwdState :=
  { buffer := [⟨[1], "a", 0, none⟩, ⟨[2], "b", 0, none⟩]
    tcp_connected := true
    messages_sent := 0
    messages_buffered := 0
    maxlen := 10 }

/-- A transport oracle whose first attempt succeeds and whose second
fails. -/
def exNet : Nat → Bool := fun k => k == 0

/-- An HTTP-variant state holding one pending message of one byte. -/
def exHSt : HState :=
  { pdb := { rows := [{ id := 1, timestamp := 0, data := [65] }], nextId := 2 }
    messages_sent := 0 }

/-- The pending store obtained by two inserts between which the clock
stepped backwards (10 then 5). -/
def exBackPDB : PDB :=
  add_pending_message 5 [66] (add_pending_message 10 [65] emptyPDB)

/-- A durable store holding one sentinel row, for the sentinel-invariant
witness. -/
def exDB : DB :=
  { rows := [{ id := 1, data := [7], timestamp := PENDING_ACCUMULATOR,
               sent := 0, sent_timestamp := none }]
    nextId := 2 }

/-! ## Helper lemmas -/

theorem msgExpired_iff (now : Int) (m : BMsg) :
    msgExpired now m = true ↔
      m.sent = 1 ∧ ∃ t, m.sent_timestamp = some t ∧ now - t > 2592000 := by
  unfold msgExpired
  cases h : m.sent_timestamp with
  | none => simp [h]
  | some t => simp [h]

theorem mem_cleanup_iff (now : Int) (buf : List BMsg) (m : BMsg) :
    m ∈ cleanup_old_buffer now buf ↔ m ∈ buf ∧ msgExpired now m = false := by
  unfold cleanup_old_buffer
  simp [List.mem_filter]

theorem markIndices_length (now : Int) :
    ∀ (idxs : List Nat) (buf : List BMsg),
      (markIndices now idxs buf).length = buf.length := by
  intro idxs
  induction idxs with
  | nil => intro buf; rfl
  | cons i is ih =>
    intro buf
    show (markIndices now is (markOne now buf i)).length = buf.length
    rw [ih]
    unfold markOne
    cases h : buf.get? i with
    | none => rfl
    | some m => simp [List.length_set]

theorem cleanup_length_le (now : Int) (buf : List BMsg) :
    (cleanup_old_buffer now buf).length ≤ buf.length :=
  List.length_filter_le _ buf

theorem deque_append_length_le (maxlen : Nat) (buf : List BMsg) (m : BMsg)
    (h : buf.length ≤ maxlen) :
    (deque_append maxlen buf m).length ≤ maxlen := by
  unfold deque_append
  have hl : (buf ++ [m]).length = buf.length + 1 := by simp
  split
  · rename_i hc
    simp only [List.length_drop]
    omega
  · rename_i hc
    omega

theorem deque_append_full (maxlen : Nat) (buf : List BMsg) (m : BMsg)
    (hfull : buf.length = maxlen) (hpos : 1 ≤ maxlen) :
    deque_append maxlen buf m = buf.drop 1 ++ [m] := by
  unfold deque_append
  have hlen : (buf ++ [m]).length = maxlen + 1 := by
    simp [List.length_append, hfull]
  rw [if_pos (by omega), hlen]
  have h1 : maxlen + 1 - maxlen = 1 := by omega
  rw [h1, List.drop_append_of_le_length (by omega)]

/-- Claim C5: a retention sweep removes a message exactly when it is sent
and its sent timestamp is more than 2592000 seconds (30 days) in the past;
unsent messages are never removed; a sent message aged 31 days is removed
and one aged 29 days is kept. -/
theorem C5_retention :
    (∀ (now : Int) (buf : List BMsg) (m : BMsg), m ∈ buf →
        (m ∉ cleanup_old_buffer now buf ↔
          m.sent = 1 ∧ ∃ t, m.sent_timestamp = some t ∧ now - t > 2592000))
    ∧ (∀ (now : Int) (buf : List BMsg) (m : BMsg), m ∈ buf → m.sent = 0 →
        m ∈ cleanup_old_buffer now buf)
    ∧ (⟨[65], "t", 1, some 0⟩ : BMsg) ∉ cleanup_old_buffer 2678400 [⟨[65], "t", 1, some 0⟩]
    ∧ (⟨[65], "t", 1, some 0⟩ : BMsg) ∈ cleanup_old_buffer 2505600 [⟨[65], "t", 1, some 0⟩] := by
  have key : ∀ (now : Int) (buf : List BMsg) (m : BMsg), m ∈ buf →
      (m ∉ cleanup_old_buffer now buf ↔
        m.sent = 1 ∧ ∃ t, m.sent_timestamp = some t ∧ now - t > 2592000) := by
    intro now buf m hm
    rw [← msgExpired_iff]
    constructor
    · intro hnot
      by_contra hexp
      exact hnot ((mem_cleanup_iff now buf m).mpr
        ⟨hm, by revert hexp; cases msgExpired now m <;> simp⟩)
    · intro hexp hmem
      have := ((mem_cleanup_iff now buf m).mp hmem).2
      rw [hexp] at this
      simp at this
  refine ⟨key, ?_, ?_, ?_⟩
  · intro now buf m hm hs
    apply (mem_cleanup_iff now buf m).mpr
    refine ⟨hm, ?_⟩
    unfold msgExpired
    simp [hs]
  · intro hmem
    have := ((mem_cleanup_iff 2678400 _ _).mp hmem).2
    rw [show msgExpired 2678400 (⟨[65], "t", 1, some 0⟩ : BMsg) = true from by decide] at this
    simp at this
  · exact (mem_cleanup_iff 2505600 _ _).mpr ⟨by simp, by decide⟩

/-- Witness for C5 at a concrete input: a sent message stamped 31 days ago
is gone after the sweep. -/
theorem C5_retention_witness :
    (⟨[66], "s", 1, some 100⟩ : BMsg) ∈ [(⟨[66], "s", 1, some 100⟩ : BMsg)]
    ∧ (⟨[66], "s", 1, some 100⟩ : BMsg) ∉ cleanup_old_buffer 2678500 [⟨[66], "s", 1, some 100⟩] :=
  ⟨by decide,
    (C5_retention.1 2678500 [⟨[66], "s", 1, some 100⟩] ⟨[66], "s", 1, some 100⟩
      (by decide)).mpr ⟨rfl, 100, rfl, by decide⟩⟩

/-- Claim C9: calling start on a running engine reports failure and leaves
the state untouched; on a stopped engine it sets the running flag, spawns
the three workers and reports success - in both the TCP and the HTTP
variant. -/
theorem C9_start :
    (∀ st : LifeState, st.running = true → start_fwd st = (false, st))
    ∧ (∀ st : LifeState, st.running = false →
        start_fwd st = (true, { running := true, threads := 3 }))
    ∧ (∀ st : LifeState, st.running = true → start_http st = (false, st))
    ∧ (∀ st : LifeState, st.running = false →
        start_http st = (true, { running := true, threads := 3 })) := by
  refine ⟨?_, ?_, ?_, ?_⟩ <;> intro st h <;> simp [start_fwd, start_http, h]

/-- Witness for C9 at concrete inputs: a running engine refuses, a stopped
one starts. -/
theorem C9_start_witness :
    (({ running := true, threads := 3 } : LifeState).running = true
      ∧ start_fwd { running := true, threads := 3 }
          = (false, { running := true, threads := 3 }))
    ∧ (({ running := false, threads := 0 } : LifeState).running = false
      ∧ start_http { running := false, threads := 0 }
          = (true, { running := true, threads := 3 })) :=
  ⟨⟨rfl, C9_start.1 { running := true, threads := 3 } rfl⟩,
   ⟨rfl, C9_start.2.2.2 { running := false, threads := 0 } rfl⟩⟩

theorem foldl_deque_append_length_le (maxlen : Nat) :
    ∀ (msgs : List BMsg) (b : List BMsg), b.length ≤ maxlen →
      (msgs.foldl (fun acc m => deque_append maxlen acc m) b).length ≤ maxlen := by
  intro msgs
  induction msgs with
  | nil => intro b hb; exact hb
  | cons m ms ih =>
    intro b hb
    exact ih _ (deque_append_length_le maxlen b m hb)

theorem foldl_deque_append_eq (maxlen : Nat) :
    ∀ (msgs : List BMsg) (b : List BMsg), b.length ≤ maxlen →
      msgs.foldl (fun acc m => deque_append maxlen acc m) b
        = (b ++ msgs).drop ((b ++ msgs).length - maxlen) := by
  intro msgs
  induction msgs with
  | nil =>
    intro b hb
    simp only [List.foldl_nil, List.append_nil]
    rw [show b.length - maxlen = 0 from by omega, List.drop_zero]
  | cons m ms ih =>
    intro b hb
    show List.foldl _ (deque_append maxlen b m) ms = _
    have hb1 : (deque_append maxlen b m).length ≤ maxlen :=
      deque_append_length_le maxlen b m hb
    rw [ih (deque_append maxlen b m) hb1]
    by_cases hc : maxlen < (b ++ [m]).length
    · have hbl : b.length = maxlen := by
        have hlen : (b ++ [m]).length = b.length + 1 := by simp
        omega
      have hdq : deque_append maxlen b m = (b ++ [m]).drop 1 := by
        unfold deque_append
        rw [if_pos hc, show (b ++ [m]).length - maxlen = 1 from by simp [hbl]]
      rw [hdq]
      have hlen1 : ((b ++ [m]).drop 1).length = maxlen := by
        simp [List.length_drop, hbl]
      have hamt : ((b ++ [m]).drop 1 ++ ms).length - maxlen = ms.length := by
        rw [List.length_append, hlen1]
        omega
      rw [hamt]
      have hstep : ((b ++ [m]).drop 1) ++ ms = ((b ++ [m]) ++ ms).drop 1 :=
        (List.drop_append_of_le_length (by simp)).symm
      rw [hstep, List.drop_drop, List.append_cons b m ms]
      have hamt2 : ((b ++ [m]) ++ ms).length - maxlen = 1 + ms.length := by
        simp only [List.length_append, List.length_singleton, hbl]
        omega
      rw [hamt2]
    · have hdq : deque_append maxlen b m = b ++ [m] := by
        unfold deque_append
        rw [if_neg hc]
      rw [hdq, ← List.append_cons]

/-- Claim C10: construction is total in the durable-store outcomes - a
failing init or load is caught and the engine comes up stopped, with an
empty buffer and an empty accumulator on the respective failure; a
successful load appends the fetched rows into the buffer_size-capped
deque, so the buffer holds the most recent rows up to the cap and never
exceeds it. -/
theorem C10_construct :
    (∀ (cfg : Option Nat) (ir : Except Unit Unit) (pr : Except Unit (Option (List Nat))),
        (mkForwarder cfg ir (Except.error ()) pr).buffer = [])
    ∧ (∀ (cfg : Option Nat) (ir : Except Unit Unit) (br : Except Unit (List LoadedRow)),
        (mkForwarder cfg ir br (Except.error ())).serial_accumulator = [])
    ∧ (∀ (cfg : Option Nat) (ir : Except Unit Unit) (br : Except Unit (List LoadedRow))
        (pr : Except Unit (Option (List Nat))),
        (mkForwarder cfg ir br pr).running = false
          ∧ (mkForwarder cfg ir br pr).maxlen = getBufferSize cfg)
    ∧ (∀ (cfg : Option Nat) (ir : Except Unit Unit) (rows : List LoadedRow)
        (pr : Except Unit (Option (List Nat))),
        (mkForwarder cfg ir (Except.ok rows) pr).buffer
          = (rows.map rowToMsg).drop (rows.length - getBufferSize cfg))
    ∧ (∀ (cfg : Option Nat) (ir : Except Unit Unit) (br : Except Unit (List LoadedRow))
        (pr : Except Unit (Option (List Nat))),
        (mkForwarder cfg ir br pr).buffer.length ≤ getBufferSize cfg) := by
  have hbuf : ∀ (cfg : Option Nat) (ir : Except Unit Unit) (rows : List LoadedRow)
      (pr : Except Unit (Option (List Nat))),
      (mkForwarder cfg ir (Except.ok rows) pr).buffer
        = rows.foldl (fun b r => deque_append (getBufferSize cfg) b (rowToMsg r)) [] := by
    intro cfg ir rows pr
    cases ir <;> rfl
  refine ⟨?_, ?_, ?_, ?_, ?_⟩
  · intro cfg ir pr; cases ir <;> rfl
  · intro cfg ir br; cases ir <;> rfl
  · intro cfg ir br pr; cases ir <;> exact ⟨rfl, rfl⟩
  · intro cfg ir rows pr
    rw [hbuf cfg ir rows pr,
      ← List.foldl_map rowToMsg
          (fun acc m => deque_append (getBufferSize cfg) acc m) rows [],
      foldl_deque_append_eq (getBufferSize cfg) (rows.map rowToMsg) [] (by simp)]
    simp [List.length_map]
  · intro cfg ir br pr
    cases br with
    | error e =>
      have h : (mkForwarder cfg ir (Except.error e) pr).buffer = [] := by
        cases ir <;> rfl
      rw [h]
      simp
    | ok rows =>
      rw [hbuf cfg ir rows pr,
        ← List.foldl_map rowToMsg
            (fun acc m => deque_append (getBufferSize cfg) acc m) rows []]
      exact foldl_deque_append_length_le (getBufferSize cfg) (rows.map rowToMsg) [] (by simp)

/-- Claim C6: every buffer operation keeps the in-memory buffer within
maxlen messages; appending to a buffer at exactly maxlen evicts the oldest
message rather than rejecting or growing; the configured size defaults to
10000. -/
theorem C6_bounded :
    (∀ (op : Op) (st : FwdState), st.buffer.length ≤ st.maxlen →
        (applyOp op st).buffer.length ≤ st.maxlen)
    ∧ (∀ (st : FwdState) (iso : String) (d : List Nat),
        st.buffer.length = st.maxlen → 1 ≤ st.maxlen →
        (applyOp (Op.add iso d) st).buffer = st.buffer.drop 1 ++ [newMsg iso d])
    ∧ getBufferSize none = 10000 := by
  refine ⟨?_, ?_, rfl⟩
  · intro op st h
    cases op with
    | add iso d => exact deque_append_length_le st.maxlen st.buffer _ h
    | cleanup now =>
      exact le_trans (cleanup_length_le now st.buffer) h
    | flush net now =>
      show (flush_buffer net now st).buffer.length ≤ st.maxlen
      unfold flush_buffer
      split
      · exact h
      · split
        · exact h
        · split
          · exact le_trans (cleanup_length_le _ _) h
          · refine le_trans (cleanup_length_le _ _) ?_
            split
            · exact h
            · rw [markIndices_length]
              exact h
    | send net iso d =>
      show ((send_data net iso d st).2).buffer.length ≤ st.maxlen
      unfold send_data
      split
      · split
        · exact h
        · exact deque_append_length_le st.maxlen st.buffer _ h
      · exact deque_append_length_le st.maxlen st.buffer _ h
  · intro st iso d hfull hpos
    exact deque_append_full st.maxlen st.buffer _ hfull hpos

/-- Witness for C6 at a concrete input: a full two-slot buffer evicts its
oldest element on insert. -/
theorem C6_bounded_witness :
    (exFull2.buffer.length = exFull2.maxlen)
    ∧ (applyOp (Op.add "c" [3]) exFull2).buffer
        = [⟨[2], "b", 0, none⟩, newMsg "c" [3]] :=
  ⟨rfl, by
    have h := C6_bounded.2.1 exFull2 "c" [3] rfl (by decide)
    rw [h]; rfl⟩

theorem filter_sentinel_of_filter_not (rows : List DbRow) :
    (rows.filter (fun r => !(r.timestamp == PENDING_ACCUMULATOR))).filter
        (fun r => r.timestamp == PENDING_ACCUMULATOR) = [] := by
  induction rows with
  | nil => rfl
  | cons r rs ih =>
    by_cases h : r.timestamp == PENDING_ACCUMULATOR
    · simp [List.filter_cons, h, ih]
    · simp only [List.filter_cons]
      rw [if_pos (by simp [h]), List.filter_cons, if_neg (by simp [h])]
      exact ih

theorem filter_sentinel_idem (rows : List DbRow) :
    ((rows.filter (fun r => r.timestamp == PENDING_ACCUMULATOR)).filter
        (fun r => r.timestamp == PENDING_ACCUMULATOR))
      = rows.filter (fun r => r.timestamp == PENDING_ACCUMULATOR) := by
  induction rows with
  | nil => rfl
  | cons r rs ih =>
    by_cases h : r.timestamp == PENDING_ACCUMULATOR
    · simp [List.filter_cons, h, ih]
    · simp [List.filter_cons, h, ih]

theorem insertAll_filter_sentinel (buf : List BMsg) :
    ∀ db : DB, (∀ m ∈ buf, m.timestamp ≠ PENDING_ACCUMULATOR) →
      (insertAll buf db).rows.filter (fun r => r.timestamp == PENDING_ACCUMULATOR)
        = db.rows.filter (fun r => r.timestamp == PENDING_ACCUMULATOR) := by
  induction buf with
  | nil => intro db _; rfl
  | cons m rest ih =>
    intro db h
    have hstep :
        insertAll (m :: rest) db
          = insertAll rest
              { rows := db.rows ++ [{ id := db.nextId, data := m.data,
                                      timestamp := m.timestamp, sent := m.sent,
                                      sent_timestamp := m.sent_timestamp }]
                nextId := db.nextId + 1 } := rfl
    rw [hstep, ih _ (fun x hx => h x (List.mem_cons_of_mem _ hx))]
    have hm : (m.timestamp == PENDING_ACCUMULATOR) = false := by
      simpa using h m (List.mem_cons_self _ _)
    simp [List.filter_append, List.filter_cons, hm]

/-- Claim C8: a save of the pending-accumulator record leaves exactly one
sentinel row when the accumulator is non-empty and none otherwise - never
more than one - and a buffer save leaves the sentinel rows untouched. -/
theorem C8_sentinel :
    (∀ (acc : List Nat) (db : DB),
        countSentinel (save_pending_data acc db).rows
          = if acc.isEmpty then 0 else 1)
    ∧ (∀ (acc : List Nat) (db : DB),
        countSentinel (save_pending_data acc db).rows ≤ 1)
    ∧ (∀ (buf : List BMsg) (db : DB),
        (∀ m ∈ buf, m.timestamp ≠ PENDING_ACCUMULATOR) →
        (save_buffer buf db).rows.filter (fun r => r.timestamp == PENDING_ACCUMULATOR)
          = db.rows.filter (fun r => r.timestamp == PENDING_ACCUMULATOR)) := by
  have key : ∀ (acc : List Nat) (db : DB),
      countSentinel (save_pending_data acc db).rows
        = if acc.isEmpty then 0 else 1 := by
    intro acc db
    unfold save_pending_data countSentinel
    by_cases ha : acc.isEmpty
    · rw [if_pos ha, if_pos ha]
      simp [filter_sentinel_of_filter_not]
    · rw [if_neg ha, if_neg ha]
      simp only [List.filter_append, filter_sentinel_of_filter_not, List.filter_cons]
      rw [if_pos (by simp [PENDING_ACCUMULATOR])]
      simp
  refine ⟨key, ?_, ?_⟩
  · intro acc db
    rw [key acc db]
    by_cases ha : acc.isEmpty <;> simp [ha]
  · intro buf db h
    unfold save_buffer
    rw [insertAll_filter_sentinel buf _ h]
    exact filter_sentinel_idem db.rows

/-- Witness for C8 at a concrete input: saving a one-message buffer leaves
the single sentinel row of the store unchanged. -/
theorem C8_sentinel_witness :
    (newMsg "x" [1]).timestamp ≠ PENDING_ACCUMULATOR
    ∧ (save_buffer [newMsg "x" [1]] exDB).rows.filter
          (fun r => r.timestamp == PENDING_ACCUMULATOR)
        = exDB.rows.filter (fun r => r.timestamp == PENDING_ACCUMULATOR) :=
  ⟨by decide, C8_sentinel.2.2 [newMsg "x" [1]] exDB (by decide)⟩

/-- Counterexample to claim C3: a 200 response whose JSON bytes_sent field
is 0 while the payload has length 1 is still treated as delivered - the
pending row is removed and the attempt reports success, against the
claimed iff. -/
theorem C3_counterexample :
    (send_to_http (HttpOutcome.response 200 (some 0)) 1 [65] exHSt).1 = true
    ∧ (send_to_http (HttpOutcome.response 200 (some 0)) 1 [65] exHSt).2.pdb.rows = []
    ∧ (0 : Int) ≠ (([65] : List Nat).length : Int) := by
  refine ⟨rfl, rfl, by decide⟩

/-- Claim C3 as amended: an HTTP-relay send attempt is treated as
delivered (pending row removed, counted as sent) exactly when the response
status is 200, regardless of the bytes_sent field, whose mismatch is only
logged; any non-200 status or a raised exception (timeout) is a failure
that leaves the state untouched. -/
theorem C3_http_success :
    ∀ (out : HttpOutcome) (mid : Nat) (payload : List Nat) (st : HState),
      ((send_to_http out mid payload st).1 = true
          ↔ ∃ bs, out = HttpOutcome.response 200 bs)
      ∧ ((send_to_http out mid payload st).1 = true →
          (send_to_http out mid payload st).2.pdb
              = remove_pending_message mid st.pdb
            ∧ (send_to_http out mid payload st).2.messages_sent
              = st.messages_sent + 1)
      ∧ ((send_to_http out mid payload st).1 = false →
          (send_to_http out mid payload st).2 = st) := by
  intro out mid payload st
  cases out with
  | error =>
    refine ⟨?_, ?_, ?_⟩
    · constructor
      · intro h; exact absurd h (by simp [send_to_http])
      · rintro ⟨bs, hbs⟩; exact absurd hbs (by simp)
    · intro h; exact absurd h (by simp [send_to_http])
    · intro _; rfl
  | response status bs =>
    by_cases hs : status = 200
    · subst hs
      refine ⟨?_, ?_, ?_⟩
      · constructor
        · intro _; exact ⟨bs, rfl⟩
        · intro _; rfl
      · intro _; exact ⟨rfl, rfl⟩
      · intro h; exact absurd h (by simp [send_to_http])
    · have hbeq : (status == 200) = false := by simp [hs]
      refine ⟨?_, ?_, ?_⟩
      · constructor
        · intro h
          exact absurd h (by simp [send_to_http, hbeq])
        · rintro ⟨bs2, hbs2⟩
          cases hbs2
          exact absurd rfl hs
      · intro h
        exact absurd h (by simp [send_to_http, hbeq])
      · intro _
        simp [send_to_http, hbeq]

/-- Witness for the amended C3 at concrete inputs: a timeout retains the
pending message; a 200 response removes it. -/
theorem C3_http_success_witness :
    ((send_to_http HttpOutcome.error 1 [65] exHSt).1 = false
      ∧ (send_to_http HttpOutcome.error 1 [65] exHSt).2 = exHSt)
    ∧ ((send_to_http (HttpOutcome.response 200 none) 1 [65] exHSt).1 = true
      ∧ (send_to_http (HttpOutcome.response 200 none) 1 [65] exHSt).2.pdb
          = remove_pending_message 1 exHSt.pdb) :=
  ⟨⟨rfl, (C3_http_success HttpOutcome.error 1 [65] exHSt).2.2 rfl⟩,
   ⟨rfl, ((C3_http_success (HttpOutcome.response 200 none) 1 [65] exHSt).2.1 rfl).1⟩⟩

/-- Counterexample to claim C4: in the TCP variant, stop() closes the
serial handle only after every worker join - the close event follows all
join events in the trace - so the serial handle is not closed before the
workers are joined. -/
theorem C4_counterexample :
    (stop_fwd true true).1 = true
    ∧ evIndexes (stop_fwd true true).2 StopEv.closeSerial ≠ []
    ∧ (∀ i ∈ evIndexes (stop_fwd true true).2 (StopEv.joinWorker 5),
        ∀ j ∈ evIndexes (stop_fwd true true).2 StopEv.closeSerial, i < j) := by
  refine ⟨rfl, by decide, by decide⟩

/-- Claim C4 as amended: in both variants the running flag is cleared
first, each worker is joined with a per-worker deadline (5 s TCP, 2 s
HTTP), and the persistence and residual-flush steps run only after all
joins; the serial handle is closed before the joins only in the HTTP
variant - the TCP variant closes it after the joins and the persistence
steps; stop on a non-running engine refuses and performs nothing. -/
theorem C4_stop_order :
    ∀ pending : Bool,
      stop_fwd false pending = (false, [])
      ∧ stop_http false = (false, [])
      ∧ (stop_fwd true pending).2.head? = some StopEv.clearRunning
      ∧ (evIndexes (stop_fwd true pending).2 (StopEv.joinWorker 5)).length = 3
      ∧ (∀ i ∈ evIndexes (stop_fwd true pending).2 (StopEv.joinWorker 5),
          ∀ j ∈ evIndexes (stop_fwd true pending).2 StopEv.savePending, i < j)
      ∧ (∀ i ∈ evIndexes (stop_fwd true pending).2 (StopEv.joinWorker 5),
          ∀ j ∈ evIndexes (stop_fwd true pending).2 StopEv.saveBuffer, i < j)
      ∧ (∀ i ∈ evIndexes (stop_fwd true pending).2 (StopEv.joinWorker 5),
          ∀ j ∈ evIndexes (stop_fwd true pending).2 StopEv.closeSerial, i < j)
      ∧ (∀ i ∈ evIndexes (stop_fwd true pending).2 (StopEv.joinWorker 5),
          ∀ j ∈ evIndexes (stop_fwd true pending).2 StopEv.closeTcp, i < j)
      ∧ (stop_http true).2.head? = some StopEv.clearRunning
      ∧ (evIndexes (stop_http true).2 (StopEv.joinWorker 2)).length = 3
      ∧ (∃ i ∈ evIndexes (stop_http true).2 StopEv.closeSerial,
          ∀ j ∈ evIndexes (stop_http true).2 (StopEv.joinWorker 2), i < j)
      ∧ (∀ i ∈ evIndexes (stop_http true).2 (StopEv.joinWorker 2),
          ∀ j ∈ evIndexes (stop_http true).2 StopEv.sendBuffered, i < j) := by
  intro pending
  cases pending <;> exact (by decide)

/-- Witness for the amended C4: the concrete TCP stop trace with a
non-empty pending accumulator starts by clearing the running flag. -/
theorem C4_stop_order_witness :
    (stop_fwd true true).2.head? = some StopEv.clearRunning :=
  (C4_stop_order true).2.2.1

theorem unsentFrom_index_ge (buf : List BMsg) :
    ∀ (i : Nat) (p : Nat × BMsg), p ∈ unsentFrom i buf → i ≤ p.1 := by
  induction buf with
  | nil => intro i p hp; exact absurd hp (List.not_mem_nil p)
  | cons m rest ih =>
    intro i p hp
    unfold unsentFrom at hp
    by_cases hm : (m.sent == 0) = true
    · rw [if_pos hm] at hp
      rcases List.mem_cons.mp hp with h | h
      · subst h; exact le_refl i
      · exact le_trans (Nat.le_succ i) (ih (i + 1) p h)
    · rw [if_neg hm] at hp
      exact le_trans (Nat.le_succ i) (ih (i + 1) p hp)

theorem insertByTs_sorted (x : PRow) (xs : List PRow)
    (h : List.Pairwise (fun a b : PRow => a.timestamp ≤ b.timestamp) (x :: xs)) :
    insertByTs x xs = x :: xs := by
  cases xs with
  | nil => rfl
  | cons y ys =>
    have hxy : x.timestamp ≤ y.timestamp :=
      (List.pairwise_cons.mp h).1 y (List.mem_cons_self _ _)
    unfold insertByTs
    rw [if_pos hxy]

theorem sortByTs_sorted_id (rows : List PRow)
    (h : List.Pairwise (fun a b : PRow => a.timestamp ≤ b.timestamp) rows) :
    sortByTs rows = rows := by
  induction rows with
  | nil => rfl
  | cons x xs ih =>
    have htail := (List.pairwise_cons.mp h).2
    show insertByTs x (sortByTs xs) = x :: xs
    rw [ih htail]
    exact insertByTs_sorted x xs h

/-- Counterexample to claim C7: the HTTP variant enumerates the pending
messages ordered by the stored clock value, not by id; after two inserts
between which the clock stepped backwards, the enumeration yields ids
[2, 1], which is not strictly increasing. -/
theorem C7_counterexample :
    (get_pending_messages exBackPDB).map PRow.id = [2, 1]
    ∧ ¬ List.Pairwise (fun a b : Nat => a < b)
        ((get_pending_messages exBackPDB).map PRow.id) := by
  refine ⟨by decide, by decide⟩

/-- Claim C7 as amended: the TCP-variant flush enumerates unsent messages
at strictly increasing buffer positions, and the HTTP-variant enumeration
(ORDER BY timestamp) is in strictly increasing id order whenever the
stored timestamps are nondecreasing in insertion order - it returns the
store in its id order then - but not in general. -/
theorem C7_order :
    (∀ (buf : List BMsg) (i : Nat),
        List.Pairwise (fun a b : Nat × BMsg => a.1 < b.1) (unsentFrom i buf))
    ∧ (∀ db : PDB,
        List.Pairwise (fun a b : PRow => a.timestamp ≤ b.timestamp) db.rows →
        get_pending_messages db = db.rows)
    ∧ (∀ db : PDB,
        List.Pairwise (fun a b : PRow => a.timestamp ≤ b.timestamp) db.rows →
        List.Pairwise (fun a b : PRow => a.id < b.id) db.rows →
        List.Pairwise (fun a b : Nat => a < b)
          ((get_pending_messages db).map PRow.id)) := by
  have sorted_id : ∀ db : PDB,
      List.Pairwise (fun a b : PRow => a.timestamp ≤ b.timestamp) db.rows →
      get_pending_messages db = db.rows := by
    intro db h
    exact sortByTs_sorted_id db.rows h
  refine ⟨?_, sorted_id, ?_⟩
  · intro buf
    induction buf with
    | nil => intro i; exact List.Pairwise.nil
    | cons m rest ih =>
      intro i
      unfold unsentFrom
      by_cases hm : (m.sent == 0) = true
      · rw [if_pos hm]
        refine List.pairwise_cons.mpr ⟨?_, ih (i + 1)⟩
        intro q hq
        exact lt_of_lt_of_le (Nat.lt_succ_self i) (unsentFrom_index_ge rest (i + 1) q hq)
      · rw [if_neg hm]
        exact ih (i + 1)
  · intro db hts hid
    rw [sorted_id db hts]
    exact List.pairwise_map.mpr hid

/-- Witness for the amended C7: a single-row store is already in timestamp
order, so the enumeration returns it unchanged. -/
theorem C7_order_witness :
    get_pending_messages exHSt.pdb = exHSt.pdb.rows :=
  C7_order.2.1 exHSt.pdb (by decide)

/-! ## Lemmas for the flush and mark-sent claims -/

theorem flipMsg_idem (now : Int) (m : BMsg) :
    flipMsg now (flipMsg now m) = flipMsg now m := rfl

theorem markOne_get? (now : Int) :
    ∀ (buf : List BMsg) (i j : Nat),
      (markOne now buf i).get? j
        = if i = j then (buf.get? j).map (flipMsg now) else buf.get? j := by
  intro buf
  induction buf with
  | nil =>
    intro i j
    show ([] : List BMsg).get? j = _
    split <;> simp
  | cons m rest ih =>
    intro i j
    cases i with
    | zero =>
      show ((m :: rest).set 0 (flipMsg now m)).get? j = _
      cases j with
      | zero => rfl
      | succ j0 => simp [List.set]
    | succ i0 =>
      show (markOne now (m :: rest) (i0 + 1)).get? j = _
      have hbody : markOne now (m :: rest) (i0 + 1)
          = m :: markOne now rest i0 := by
        unfold markOne
        rw [show (m :: rest).get? (i0 + 1) = rest.get? i0 from rfl]
        cases h : rest.get? i0 with
        | none => rfl
        | some m0 => rfl
      rw [hbody]
      cases j with
      | zero => simp
      | succ j0 =>
        show (markOne now rest i0).get? j0 = _
        rw [ih i0 j0]
        by_cases hij : i0 = j0
        · subst hij
          rw [if_pos rfl, if_pos rfl]
          rfl
        · rw [if_neg hij, if_neg (by omega)]
          rfl

theorem markIndices_get? (now : Int) :
    ∀ (idxs : List Nat) (buf : List BMsg) (j : Nat),
      (markIndices now idxs buf).get? j
        = (buf.get? j).map (fun m => if j ∈ idxs then flipMsg now m else m) := by
  intro idxs
  induction idxs with
  | nil =>
    intro buf j
    show buf.get? j = _
    cases h : buf.get? j <;> simp
  | cons i is ih =>
    intro buf j
    show (markIndices now is (markOne now buf i)).get? j = _
    rw [ih (markOne now buf i) j, markOne_get? now buf i j]
    by_cases hij : i = j
    · subst hij
      rw [if_pos rfl]
      cases h : buf.get? i with
      | none => rfl
      | some m0 =>
        simp only [Option.map_some']
        by_cases hmem : i ∈ is
        · simp [hmem, flipMsg_idem]
        · simp [hmem]
    · rw [if_neg hij]
      cases h : buf.get? j with
      | none => rfl
      | some m0 =>
        simp only [Option.map_some']
        by_cases hmem : j ∈ is
        · simp [hmem, List.mem_cons]
        · have : ¬ j ∈ i :: is := by
            intro hc
            rcases List.mem_cons.mp hc with hc1 | hc2
            · exact hij hc1.symm
            · exact hmem hc2
          simp [hmem, this]

theorem unsentFrom_succ :
    ∀ (buf : List BMsg) (i : Nat),
      unsentFrom (i + 1) buf
        = (unsentFrom i buf).map (fun p => (p.1 + 1, p.2)) := by
  intro buf
  induction buf with
  | nil => intro i; rfl
  | cons m rest ih =>
    intro i
    unfold unsentFrom
    by_cases hm : (m.sent == 0) = true
    · rw [if_pos hm, if_pos hm, List.map_cons, ih (i + 1)]
    · rw [if_neg hm, if_neg hm, ih (i + 1)]

theorem markIndices_shift (now : Int) :
    ∀ (idxs : List Nat) (m : BMsg) (rest : List BMsg),
      markIndices now (idxs.map (fun n => n + 1)) (m :: rest)
        = m :: markIndices now idxs rest := by
  intro idxs
  induction idxs with
  | nil => intro m rest; rfl
  | cons i is ih =>
    intro m rest
    show markIndices now (is.map (fun n => n + 1))
        (markOne now (m :: rest) (i + 1)) = _
    have hbody : markOne now (m :: rest) (i + 1)
        = m :: markOne now rest i := by
      unfold markOne
      rw [show (m :: rest).get? (i + 1) = rest.get? i from rfl]
      cases h : rest.get? i with
      | none => rfl
      | some m0 => rfl
    rw [hbody, ih m (markOne now rest i)]
    rfl

theorem markPref_zero (now : Int) (buf : List BMsg) :
    markPref now 0 buf = buf := by
  cases buf <;> rfl

theorem markPref_nil (now : Int) (k : Nat) : markPref now k [] = [] := by
  cases k <;> rfl

theorem markPref_succ_cons (now : Int) (k : Nat) (m : BMsg) (rest : List BMsg) :
    markPref now (k + 1) (m :: rest)
      = if (m.sent == 0) = true then flipMsg now m :: markPref now k rest
        else m :: markPref now (k + 1) rest := rfl

theorem unsentFrom_cons (i : Nat) (m : BMsg) (rest : List BMsg) :
    unsentFrom i (m :: rest)
      = if (m.sent == 0) = true then (i, m) :: unsentFrom (i + 1) rest
        else unsentFrom (i + 1) rest := rfl

theorem markPref_cons_sent (now : Int) (k : Nat) (m : BMsg) (rest : List BMsg)
    (hm : ¬ (m.sent == 0) = true) :
    markPref now k (m :: rest) = m :: markPref now k rest := by
  cases k with
  | zero => rw [markPref_zero, markPref_zero]
  | succ k0 => rw [markPref_succ_cons, if_neg hm]

theorem markIndices_take_unsent (now : Int) :
    ∀ (buf : List BMsg) (k : Nat),
      markIndices now (((unsentFrom 0 buf).take k).map Prod.fst) buf
        = markPref now k buf := by
  intro buf
  induction buf with
  | nil =>
    intro k
    rw [show unsentFrom 0 ([] : List BMsg) = [] from rfl, List.take_nil,
      markPref_nil]
    rfl
  | cons m rest ih =>
    intro k
    have hshift : unsentFrom 1 rest
        = (unsentFrom 0 rest).map (fun p => (p.1 + 1, p.2)) :=
      unsentFrom_succ rest 0
    by_cases hm : (m.sent == 0) = true
    · have hu : unsentFrom 0 (m :: rest)
          = (0, m) :: (unsentFrom 0 rest).map (fun p => (p.1 + 1, p.2)) := by
        rw [unsentFrom_cons, if_pos hm, hshift]
      cases k with
      | zero =>
        rw [markPref_zero]
        rfl
      | succ k0 =>
        rw [hu, List.take_succ_cons, ← List.map_take, List.map_cons]
        have hfst : (((unsentFrom 0 rest).take k0).map (fun p => (p.1 + 1, p.2))).map Prod.fst
            = (((unsentFrom 0 rest).take k0).map Prod.fst).map (fun n => n + 1) := by
          rw [List.map_map, List.map_map]
          rfl
        rw [hfst]
        show markIndices now
            ((((unsentFrom 0 rest).take k0).map Prod.fst).map (fun n => n + 1))
            (markOne now (m :: rest) 0) = _
        have h0 : markOne now (m :: rest) 0 = flipMsg now m :: rest := rfl
        rw [h0, markIndices_shift, ih k0, markPref_succ_cons, if_pos hm]
    · have hu : unsentFrom 0 (m :: rest)
          = (unsentFrom 0 rest).map (fun p => (p.1 + 1, p.2)) := by
        rw [unsentFrom_cons, if_neg hm, hshift]
      rw [hu, ← List.map_take]
      have hfst : (((unsentFrom 0 rest).take k).map (fun p => (p.1 + 1, p.2))).map Prod.fst
          = (((unsentFrom 0 rest).take k).map Prod.fst).map (fun n => n + 1) := by
        rw [List.map_map, List.map_map]
        rfl
      rw [hfst, markIndices_shift, ih k, markPref_cons_sent now k m rest hm]

theorem unsentFrom_map_snd :
    ∀ (buf : List BMsg) (i : Nat),
      (unsentFrom i buf).map Prod.snd = buf.filter (fun m => m.sent == 0) := by
  intro buf
  induction buf with
  | nil => intro i; rfl
  | cons m rest ih =>
    intro i
    unfold unsentFrom
    by_cases hm : (m.sent == 0) = true
    · rw [if_pos hm, List.map_cons, ih (i + 1), List.filter_cons, if_pos hm]
    · rw [if_neg hm, ih (i + 1), List.filter_cons, if_neg hm]

theorem markPref_filter (now : Int) :
    ∀ (buf : List BMsg) (k : Nat),
      (markPref now k buf).filter (fun m => m.sent == 0)
        = (buf.filter (fun m => m.sent == 0)).drop k := by
  intro buf
  induction buf with
  | nil => intro k; simp [markPref]
  | cons m rest ih =>
    intro k
    by_cases hm : (m.sent == 0) = true
    · cases k with
      | zero =>
        rw [markPref_zero, List.drop_zero]
      | succ k0 =>
        have hstep : markPref now (k0 + 1) (m :: rest)
            = flipMsg now m :: markPref now k0 rest := by
          rw [markPref_succ_cons, if_pos hm]
        rw [hstep]
        have hflip : ((flipMsg now m).sent == 0) = false := rfl
        rw [List.filter_cons, if_neg (by simp [hflip]), ih k0,
          List.filter_cons, if_pos hm, List.drop_succ_cons]
    · rw [markPref_cons_sent now k m rest hm, List.filter_cons, if_neg hm,
        ih k, List.filter_cons, if_neg hm]

theorem cleanup_filter_unsent (now : Int) :
    ∀ (buf : List BMsg),
      (cleanup_old_buffer now buf).filter (fun m => m.sent == 0)
        = buf.filter (fun m => m.sent == 0) := by
  intro buf
  induction buf with
  | nil => rfl
  | cons m rest ih =>
    unfold cleanup_old_buffer at ih ⊢
    rw [List.filter_cons]
    by_cases hm : (m.sent == 0) = true
    · have hsent : m.sent = 0 := by simpa using hm
      have hexp : msgExpired now m = false := by
        unfold msgExpired
        rw [show (m.sent == 1) = false from by simp [hsent]]
        rfl
      rw [if_pos (by simp [hexp]), List.filter_cons, if_pos hm, ih,
        List.filter_cons, if_pos hm]
    · by_cases hk : (!msgExpired now m) = true
      · rw [if_pos hk, List.filter_cons, if_neg hm, ih, List.filter_cons, if_neg hm]
      · rw [if_neg hk, ih, List.filter_cons, if_neg hm]

theorem leadSucc_le (net : Nat → Bool) :
    ∀ (n k : Nat), leadSucc net k n ≤ n := by
  intro n
  induction n with
  | zero => intro k; exact le_refl 0
  | succ n0 ih =>
    intro k
    unfold leadSucc
    by_cases h : net k = true
    · rw [if_pos h]
      exact Nat.succ_le_succ (ih (k + 1))
    · rw [if_neg h]
      exact Nat.zero_le _

theorem sendLoop_eq_take (net : Nat → Bool) :
    ∀ (l : List (Nat × BMsg)) (k : Nat),
      sendLoop net k l = (l.take (leadSucc net k l.length)).map Prod.fst := by
  intro l
  induction l with
  | nil => intro k; rfl
  | cons p rest ih =>
    intro k
    rcases p with ⟨idx, m⟩
    show (if net k then idx :: sendLoop net (k + 1) rest else []) = _
    have hlen : ((idx, m) :: rest).length = rest.length + 1 := rfl
    rw [hlen]
    unfold leadSucc
    by_cases h : net k = true
    · rw [if_pos h, if_pos h, List.take_succ_cons, List.map_cons, ih (k + 1)]
    · rw [if_neg h, if_neg h]
      rfl

theorem leadSucc_true (net : Nat → Bool) :
    ∀ (n k i : Nat), i < leadSucc net k n → net (k + i) = true := by
  intro n
  induction n with
  | zero => intro k i h; exact absurd h (Nat.not_lt_zero i)
  | succ n0 ih =>
    intro k i h
    unfold leadSucc at h
    by_cases hk : net k = true
    · rw [if_pos hk] at h
      cases i with
      | zero => simpa using hk
      | succ i0 =>
        have : i0 < leadSucc net (k + 1) n0 := by omega
        have := ih (k + 1) i0 this
        have harg : k + (i0 + 1) = k + 1 + i0 := by omega
        rw [harg]
        exact this
    · rw [if_neg hk] at h
      exact absurd h (Nat.not_lt_zero i)

theorem leadSucc_false (net : Nat → Bool) :
    ∀ (n k : Nat), leadSucc net k n < n → net (k + leadSucc net k n) = false := by
  intro n
  induction n with
  | zero => intro k h; exact absurd h (Nat.not_lt_zero _)
  | succ n0 ih =>
    intro k h
    unfold leadSucc at h ⊢
    by_cases hk : net k = true
    · rw [if_pos hk] at h ⊢
      have hlt : leadSucc net (k + 1) n0 < n0 := by omega
      have := ih (k + 1) hlt
      have harg : k + (leadSucc net (k + 1) n0 + 1) = k + 1 + leadSucc net (k + 1) n0 := by
        omega
      rw [harg]
      exact this
    · rw [if_neg hk] at h ⊢
      rw [Nat.add_zero]
      exact Bool.not_eq_true _ |>.mp hk

theorem marked_filter_unsent (net : Nat → Bool) (now : Int) (buf : List BMsg) :
    (markIndices now (sendLoop net 0 (unsentFrom 0 buf)) buf).filter
        (fun m => m.sent == 0)
      = ((unsentFrom 0 buf).drop
          (leadSucc net 0 (unsentFrom 0 buf).length)).map Prod.snd := by
  rw [sendLoop_eq_take, markIndices_take_unsent, markPref_filter,
    ← unsentFrom_map_snd buf 0, List.map_drop]

/-- Claim C2: a flush snapshots the unsent messages in position order,
attempts them in order, stops at the first transport failure (every
attempt before the stop succeeded and the attempt at the stop point
failed), marks exactly the successfully sent prefix in one batched update
(every other buffer slot is untouched), and after the flush the unsent
messages are exactly the untouched suffix, unchanged and in order. -/
theorem C2_flush :
    ∀ (net : Nat → Bool) (now : Int) (st : FwdState),
      st.tcp_connected = true →
      (sendLoop net 0 (unsentFrom 0 st.buffer)
          = ((unsentFrom 0 st.buffer).take
              (leadSucc net 0 (unsentFrom 0 st.buffer).length)).map Prod.fst)
      ∧ (∀ i, i < leadSucc net 0 (unsentFrom 0 st.buffer).length → net i = true)
      ∧ (leadSucc net 0 (unsentFrom 0 st.buffer).length
            < (unsentFrom 0 st.buffer).length →
          net (leadSucc net 0 (unsentFrom 0 st.buffer).length) = false)
      ∧ (∀ j, (markIndices now (sendLoop net 0 (unsentFrom 0 st.buffer)) st.buffer).get? j
            = (st.buffer.get? j).map (fun m =>
                if j ∈ sendLoop net 0 (unsentFrom 0 st.buffer) then flipMsg now m
                else m))
      ∧ ((flush_buffer net now st).buffer.filter (fun m => m.sent == 0)
            = ((unsentFrom 0 st.buffer).drop
                (leadSucc net 0 (unsentFrom 0 st.buffer).length)).map Prod.snd) := by
  intro net now st hconn
  refine ⟨sendLoop_eq_take net _ 0, ?_, ?_, ?_, ?_⟩
  · intro i hi
    have h := leadSucc_true net (unsentFrom 0 st.buffer).length 0 i hi
    simpa using h
  · intro hlt
    have h := leadSucc_false net (unsentFrom 0 st.buffer).length 0 hlt
    simpa using h
  · intro j
    exact markIndices_get? now _ st.buffer j
  · by_cases hb : st.buffer.isEmpty
    · have hbe : st.buffer = [] := List.isEmpty_iff.mp hb
      have hfl : flush_buffer net now st = st := by
        unfold flush_buffer
        rw [if_neg (by simp [hconn]), if_pos hb]
      rw [hfl, hbe, show unsentFrom 0 ([] : List BMsg) = [] from rfl]
      simp
    · by_cases hU : (unsentFrom 0 st.buffer).isEmpty
      · have hUe : unsentFrom 0 st.buffer = [] := List.isEmpty_iff.mp hU
        have hfl : flush_buffer net now st
            = { st with buffer := cleanup_old_buffer now st.buffer } := by
          unfold flush_buffer
          rw [if_neg (by simp [hconn]), if_neg hb, if_pos hU]
        rw [hfl]
        show (cleanup_old_buffer now st.buffer).filter (fun m => m.sent == 0) = _
        rw [cleanup_filter_unsent, ← unsentFrom_map_snd st.buffer 0, hUe]
        simp
      · have hfl : (flush_buffer net now st).buffer
            = cleanup_old_buffer now
                (if (sendLoop net 0 (unsentFrom 0 st.buffer)).isEmpty then st.buffer
                 else markIndices now (sendLoop net 0 (unsentFrom 0 st.buffer)) st.buffer) := by
          unfold flush_buffer
          rw [if_neg (by simp [hconn]), if_neg hb, if_neg hU]
        rw [hfl]
        have hinner : (if (sendLoop net 0 (unsentFrom 0 st.buffer)).isEmpty then st.buffer
              else markIndices now (sendLoop net 0 (unsentFrom 0 st.buffer)) st.buffer)
            = markIndices now (sendLoop net 0 (unsentFrom 0 st.buffer)) st.buffer := by
          by_cases hS : (sendLoop net 0 (unsentFrom 0 st.buffer)).isEmpty
          · rw [if_pos hS, List.isEmpty_iff.mp hS]
            rfl
          · rw [if_neg hS]
        rw [hinner, cleanup_filter_unsent]
        exact marked_filter_unsent net now st.buffer

/-- Witness for C2 at a concrete input: with two unsent messages and a
transport that accepts the first send and refuses the second, the flush
leaves exactly the second message unsent. -/
theorem C2_flush_witness :
    exFlushSt.tcp_connected = true
    ∧ (flush_buffer exNet 7 exFlushSt).buffer.filter (fun m => m.sent == 0)
        = [⟨[2], "b", 0, none⟩] :=
  ⟨rfl, by
    have h := (C2_flush exNet 7 exFlushSt rfl).2.2.2.2
    rw [h]
    decide⟩

theorem mem_markIndices_unsent (now : Int) (idxs : List Nat)
    (buf : List BMsg) (m : BMsg)
    (hmem : m ∈ markIndices now idxs buf) (hs : m.sent = 0) : m ∈ buf := by
  rcases List.mem_iff_get?.mp hmem with ⟨j, hj⟩
  rw [markIndices_get? now idxs buf j] at hj
  rcases Option.map_eq_some'.mp hj with ⟨m0, hm0, hval⟩
  by_cases hin : j ∈ idxs
  · rw [if_pos hin] at hval
    have : m.sent = 1 := by rw [← hval]; rfl
    omega
  · rw [if_neg hin] at hval
    rw [← hval]
    exact List.get?_mem hm0

theorem mem_deque_append (maxlen : Nat) (buf : List BMsg) (x m : BMsg)
    (hmem : m ∈ deque_append maxlen buf x) : m ∈ buf ∨ m = x := by
  unfold deque_append at hmem
  have hmem2 : m ∈ buf ++ [x] := by
    by_cases hc : maxlen < (buf ++ [x]).length
    · rw [if_pos hc] at hmem
      exact List.mem_of_mem_drop hmem
    · rw [if_neg hc] at hmem
      exact hmem
  rcases List.mem_append.mp hmem2 with h | h
  · exact Or.inl h
  · exact Or.inr (List.mem_singleton.mp h)

/-- Claim C1: a buffer index enters the successfully-sent list only for an
attempt the transport acknowledged; a marked slot was either marked in
this flush or was already sent; and no buffer operation ever produces an
unsent message that is not either carried over unchanged from the previous
buffer or freshly created (so sent=true is never reverted to
sent=false). -/
theorem C1_sent_monotone :
    (∀ (net : Nat → Bool) (k : Nat) (l : List (Nat × BMsg)) (j : Nat),
        j ∈ sendLoop net k l →
        ∃ i, i < l.length ∧ net (k + i) = true
          ∧ (l.get? i).map Prod.fst = some j)
    ∧ (∀ (now : Int) (idxs : List Nat) (buf : List BMsg) (j : Nat) (m : BMsg),
        (markIndices now idxs buf).get? j = some m → m.sent = 1 →
        j ∈ idxs ∨ ∃ m0, buf.get? j = some m0 ∧ m0.sent = 1 ∧ m = m0)
    ∧ (∀ (op : Op) (st : FwdState) (m : BMsg),
        m ∈ (applyOp op st).buffer → m.sent = 0 →
        m ∈ st.buffer ∨ opFresh op = some m) := by
  refine ⟨?_, ?_, ?_⟩
  · intro net k l
    induction l generalizing k with
    | nil =>
      intro j hj
      exact absurd hj (List.not_mem_nil j)
    | cons p rest ih =>
      intro j hj
      rcases p with ⟨idx, m⟩
      by_cases hk : net k = true
      · rw [show sendLoop net k ((idx, m) :: rest)
            = idx :: sendLoop net (k + 1) rest from by
              show (if net k then _ else _) = _
              rw [if_pos hk]] at hj
        rcases List.mem_cons.mp hj with h | h
        · refine ⟨0, by simp, ?_, ?_⟩
          · rw [Nat.add_zero]; exact hk
          · rw [h]; rfl
        · rcases ih (k + 1) j h with ⟨i, hi, hnet, hget⟩
          refine ⟨i + 1, by simpa using Nat.succ_lt_succ hi, ?_, ?_⟩
          · rw [show k + (i + 1) = k + 1 + i from by omega]
            exact hnet
          · exact hget
      · rw [show sendLoop net k ((idx, m) :: rest) = [] from by
              show (if net k then _ else _) = _
              rw [if_neg hk]] at hj
        exact absurd hj (List.not_mem_nil j)
  · intro now idxs buf j m hj hs
    rw [markIndices_get? now idxs buf j] at hj
    rcases Option.map_eq_some'.mp hj with ⟨m0, hm0, hval⟩
    by_cases hin : j ∈ idxs
    · exact Or.inl hin
    · rw [if_neg hin] at hval
      exact Or.inr ⟨m0, hm0, by rw [hval]; exact hs, hval.symm⟩
  · intro op st m hmem hs
    cases op with
    | add iso d =>
      rcases mem_deque_append st.maxlen st.buffer (newMsg iso d) m hmem with h | h
      · exact Or.inl h
      · exact Or.inr (by rw [h]; rfl)
    | cleanup now =>
      exact Or.inl (List.mem_of_mem_filter hmem)
    | flush net now =>
      left
      show m ∈ st.buffer
      revert hmem
      show m ∈ (flush_buffer net now st).buffer → m ∈ st.buffer
      unfold flush_buffer
      by_cases hc : (!st.tcp_connected) = true
      · rw [if_pos hc]
        exact id
      · rw [if_neg hc]
        by_cases hb : st.buffer.isEmpty
        · rw [if_pos hb]
          exact id
        · rw [if_neg hb]
          by_cases hU : (unsentFrom 0 st.buffer).isEmpty
          · rw [if_pos hU]
            intro hmem
            exact List.mem_of_mem_filter hmem
          · rw [if_neg hU]
            intro hmem
            have hmem2 := List.mem_of_mem_filter hmem
            by_cases hS : (sendLoop net 0 (unsentFrom 0 st.buffer)).isEmpty
            · rw [if_pos hS] at hmem2
              exact hmem2
            · rw [if_neg hS] at hmem2
              exact mem_markIndices_unsent now _ st.buffer m hmem2 hs
    | send net iso d =>
      revert hmem
      show m ∈ ((send_data net iso d st).2).buffer → _
      unfold send_data
      by_cases hc : st.tcp_connected = true
      · rw [if_pos hc]
        by_cases hn : net = true
        · rw [if_pos hn]
          intro hmem
          exact Or.inl hmem
        · rw [if_neg hn]
          intro hmem
          rcases mem_deque_append st.maxlen st.buffer (newMsg iso d) m hmem with h | h
          · exact Or.inl h
          · exact Or.inr (by rw [h]; rfl)
      · rw [if_neg hc]
        intro hmem
        rcases mem_deque_append st.maxlen st.buffer (newMsg iso d) m hmem with h | h
        · exact Or.inl h
        · exact Or.inr (by rw [h]; rfl)

/-- Witness for C1 at a concrete input: an unsent message surviving a
retention sweep was already in the buffer. -/
theorem C1_sent_monotone_witness :
    (⟨[1], "a", 0, none⟩ : BMsg) ∈ (applyOp (Op.cleanup 0) exFlushSt).buffer
    ∧ ((⟨[1], "a", 0, none⟩ : BMsg) ∈ exFlushSt.buffer
        ∨ opFresh (Op.cleanup 0) = some ⟨[1], "a", 0, none⟩) :=
  ⟨by decide,
    C1_sent_monotone.2.2 (Op.cleanup 0) exFlushSt ⟨[1], "a", 0, none⟩
      (by decide) rfl⟩

end Com2tcp
